import Mathlib

/-!
Shallow embedding of the core of `tumor_detector.ipynb` (fine-tuning
EfficientNet-B1 for breast-cancer classification): the evaluator
(`evaluate_model`), the trainer (`train_model`), the k-fold splitter
(scikit-learn `KFold.split`), the cross-validation loop, and the final
training cell, together with theorems settling the frozen claims.

Conventions of the embedding:
* Python rationals/floats are modelled as `ℚ`; Python `int` division `a/b`
  raises `ZeroDivisionError` when `b = 0` and otherwise produces the exact
  quotient, so division is modelled with an explicit `Except`.
* A batch yielded by a `DataLoader` is a list of (image, integer label)
  pairs; the model and `torch.sigmoid` are external collaborators and enter
  as function parameters (`model : α → ℚ` maps an image to its single raw
  logit, `sig : ℚ → ℚ` is the sigmoid applied to it).
* Taking the truth value of a tensor (Python `bool(t)`, used implicitly by
  `and`) is defined only for one-element tensors and raises otherwise;
  this is `tensorTruth` below.
* In `evaluate_model` the comparison `predicted == labels` broadcasts the
  `[B,1]`-shaped prediction against the `[B]`-shaped labels, giving a
  `[B,B]` tensor.  For `B = 1` that broadcast is the identity and agrees
  with the elementwise zip used below; for `B ≥ 2` the resulting tensor has
  more than one element, so the `and` in the source raises exactly as the
  embedded `pyAnd` does, before any counter value could influence the
  function's result.  The `Except`-level behaviour therefore coincides.
-/

/-- Errors a Python run of the embedded code can raise. -/
inductive PyError where
  | tensorAmbiguous
  | zeroDivision
  deriving DecidableEq

deriving instance DecidableEq for Except

/-- The five running counters of `evaluate_model`, in source order. -/
structure EvalCounters where
  total : Nat
  correct : Nat
  total_positive : Nat
  predicted_positive : Nat
  predicted_positive_correct : Nat
  deriving DecidableEq

/-- All counters start at zero at the top of `evaluate_model`. -/
def zeroCounters : EvalCounters := ⟨0, 0, 0, 0, 0⟩

/-- `t.sum().item()` of a boolean tensor: the number of `true` entries. -/
def countTrue (l : List Bool) : Nat := (l.filter (fun b => b)).length

/-- Python `bool(t)` on a tensor `t`: defined only when `t` has exactly one
element, otherwise `RuntimeError: Boolean value of Tensor ... is ambiguous`. -/
def tensorTruth : List Bool → Except PyError Bool
  | [b] => Except.ok b
  | _ => Except.error PyError.tensorAmbiguous

/-- Python `a and b` on tensors: evaluate `bool(a)`; if true the value is
`b`, if false it is `a`. -/
def pyAnd (a b : List Bool) : Except PyError (List Bool) :=
  match tensorTruth a with
  | Except.error e => Except.error e
  | Except.ok true => Except.ok b
  | Except.ok false => Except.ok a

/-- Python division, raising `ZeroDivisionError` on a zero denominator. -/
def pyDiv (num den : ℚ) : Except PyError ℚ :=
  if den = 0 then Except.error PyError.zeroDivision else Except.ok (num / den)

/-- One batch from a `DataLoader`: (image, label) pairs. -/
abbrev EvalBatch (α : Type) : Type := List (α × Nat)

/-- `predicted = (torch.sigmoid(outputs.data) > threshold).long()`:
the thresholded binary prediction for each sample of the batch. -/
def predictedOf {α : Type} (model : α → ℚ) (sig : ℚ → ℚ) (threshold : ℚ)
    (b : EvalBatch α) : List Nat :=
  b.map (fun s => if threshold < sig (model s.1) then 1 else 0)

/-- The body of the `for images, labels in data_loader` loop of
`evaluate_model`: update the five counters from one batch.  The last
update evaluates `(predicted == labels and predicted == 1).sum().item()`,
whose `and` takes the truth value of the comparison tensor and hence can
raise. -/
def evalStep {α : Type} (model : α → ℚ) (sig : ℚ → ℚ) (threshold : ℚ)
    (c : EvalCounters) (b : EvalBatch α) : Except PyError EvalCounters :=
  let labels := b.map Prod.snd
  let predicted := predictedOf model sig threshold b
  let eqList := List.zipWith (fun p l => p == l) predicted labels
  let onesList := predicted.map (fun p => p == 1)
  match pyAnd eqList onesList with
  | Except.error e => Except.error e
  | Except.ok andList =>
      Except.ok
        { total := c.total + labels.length
          correct := c.correct + countTrue eqList
          total_positive := c.total_positive + countTrue (labels.map (fun l => l == 1))
          predicted_positive := c.predicted_positive + countTrue onesList
          predicted_positive_correct := c.predicted_positive_correct + countTrue andList }

/-- The whole counter loop of `evaluate_model` over the data loader. -/
def runCounters {α : Type} (model : α → ℚ) (sig : ℚ → ℚ) (threshold : ℚ)
    (c : EvalCounters) : List (EvalBatch α) → Except PyError EvalCounters
  | [] => Except.ok c
  | b :: bs =>
      match evalStep model sig threshold c b with
      | Except.error e => Except.error e
      | Except.ok c2 => runCounters model sig threshold c2 bs

/-- The four divisions at the end of `evaluate_model`, in source order:
accuracy, precision, recall, F1. -/
def computeMetrics (c : EvalCounters) : Except PyError (ℚ × ℚ × ℚ × ℚ) :=
  match pyDiv (c.correct : ℚ) (c.total : ℚ) with
  | Except.error e => Except.error e
  | Except.ok accuracy =>
    match pyDiv (c.predicted_positive_correct : ℚ) (c.predicted_positive : ℚ) with
    | Except.error e => Except.error e
    | Except.ok precision =>
      match pyDiv (c.predicted_positive_correct : ℚ) (c.total_positive : ℚ) with
      | Except.error e => Except.error e
      | Except.ok recallv =>
        match pyDiv (2 * precision * recallv) (precision + recallv) with
        | Except.error e => Except.error e
        | Except.ok f1_score => Except.ok (accuracy, precision, recallv, f1_score)

/-- `evaluate_model(model, data_loader, threshold)`: run the counter loop,
then return `(accuracy, precision, recall, f1_score)`. -/
def evaluate_model {α : Type} (model : α → ℚ) (sig : ℚ → ℚ) (threshold : ℚ)
    (batches : List (EvalBatch α)) : Except PyError (ℚ × ℚ × ℚ × ℚ) :=
  match runCounters model sig threshold zeroCounters batches with
  | Except.error e => Except.error e
  | Except.ok c => computeMetrics c

/-- The count the spec's words ask for: the number of samples of the batch
whose thresholded prediction is 1 and whose ground-truth label is 1, an
elementwise logical-AND count.  Stated from the spec, for comparison with
what `evalStep` actually adds to `predicted_positive_correct`. -/
def specAndCount {α : Type} (model : α → ℚ) (sig : ℚ → ℚ) (threshold : ℚ)
    (b : EvalBatch α) : Nat :=
  countTrue (List.zipWith (fun p l => p == 1 && l == 1)
    (predictedOf model sig threshold b) (b.map Prod.snd))

/-- The thresholded prediction of a single sample. -/
def predNat {α : Type} (model : α → ℚ) (sig : ℚ → ℚ) (threshold : ℚ) (x : α) : Nat :=
  if threshold < sig (model x) then 1 else 0

theorem pyDiv_ok {num den v : ℚ} (h : pyDiv num den = Except.ok v) :
    den ≠ 0 ∧ v = num / den := by
  unfold pyDiv at h
  by_cases hd : den = 0
  · simp [hd] at h
  · simp [hd] at h
    exact ⟨hd, h.symm⟩

theorem pyDiv_of_ne {num den : ℚ} (h : den ≠ 0) :
    pyDiv num den = Except.ok (num / den) := by
  simp [pyDiv, h]

theorem pyDiv_of_eq {num den : ℚ} (h : den = 0) :
    pyDiv num den = Except.error PyError.zeroDivision := by
  simp [pyDiv, h]

theorem predictedOf_cons {α : Type} (model : α → ℚ) (sig : ℚ → ℚ) (threshold : ℚ)
    (x : α) (y : Nat) (rest : EvalBatch α) :
    predictedOf model sig threshold ((x, y) :: rest) =
      predNat model sig threshold x :: predictedOf model sig threshold rest := rfl

theorem predictedOf_nil {α : Type} (model : α → ℚ) (sig : ℚ → ℚ) (threshold : ℚ) :
    predictedOf model sig threshold ([] : EvalBatch α) = [] := rfl

/-- On a one-sample batch `evalStep` succeeds, and in particular adds to
`predicted_positive_correct` exactly the elementwise logical-AND count. -/
theorem evalStep_singleton {α : Type} (model : α → ℚ) (sig : ℚ → ℚ) (threshold : ℚ)
    (c : EvalCounters) (x : α) (y : Nat) :
    evalStep model sig threshold c [(x, y)] =
      Except.ok
        { total := c.total + 1
          correct := c.correct + countTrue [predNat model sig threshold x == y]
          total_positive := c.total_positive + countTrue [y == 1]
          predicted_positive := c.predicted_positive + countTrue [predNat model sig threshold x == 1]
          predicted_positive_correct :=
            c.predicted_positive_correct + specAndCount model sig threshold [(x, y)] } := by
  cases hpy : (predNat model sig threshold x == y) with
  | true =>
      have hxy : predNat model sig threshold x = y := eq_of_beq hpy
      simp [evalStep, predictedOf_cons, predictedOf_nil, pyAnd, tensorTruth, hpy,
        specAndCount, countTrue, ← hxy]
  | false =>
      cases hp1 : (predNat model sig threshold x == 1) with
      | false =>
          simp [evalStep, predictedOf_cons, predictedOf_nil, pyAnd, tensorTruth, hpy, hp1,
            specAndCount, countTrue]
      | true =>
          have hx1 : predNat model sig threshold x = 1 := eq_of_beq hp1
          have hy1 : (y == 1) = false := by
            cases hyv : (y == 1) with
            | false => rfl
            | true =>
                have hy : y = 1 := eq_of_beq hyv
                rw [hx1, hy] at hpy
                simp at hpy
          simp [evalStep, predictedOf_cons, predictedOf_nil, pyAnd, tensorTruth, hpy, hp1,
            hy1, specAndCount, countTrue]

/-- On a batch of two or more samples the truth value of the comparison
tensor is ambiguous and the `and` of `evalStep` raises. -/
theorem evalStep_multi {α : Type} (model : α → ℚ) (sig : ℚ → ℚ) (threshold : ℚ)
    (c : EvalCounters) (b : EvalBatch α) (h2 : 2 ≤ b.length) :
    evalStep model sig threshold c b = Except.error PyError.tensorAmbiguous := by
  match b, h2 with
  | (x1, y1) :: (x2, y2) :: rest, _ =>
      simp [evalStep, predictedOf, pyAnd, tensorTruth]

/-- If the loader yields only one-sample batches, the counter loop of
`evaluate_model` never raises. -/
theorem runCounters_singletons {α : Type} (model : α → ℚ) (sig : ℚ → ℚ) (threshold : ℚ) :
    ∀ (batches : List (EvalBatch α)) (c : EvalCounters),
      (∀ b ∈ batches, b.length = 1) →
      ∃ c2, runCounters model sig threshold c batches = Except.ok c2 := by
  intro batches
  induction batches with
  | nil => intro c _; exact ⟨c, rfl⟩
  | cons b bs ih =>
      intro c hall
      have hb : b.length = 1 := hall b (by simp)
      match b, hb with
      | [(x, y)], _ =>
          cases hstep : evalStep model sig threshold c [(x, y)] with
          | error e =>
              rw [evalStep_singleton] at hstep
              simp at hstep
          | ok c1 =>
              obtain ⟨c2, hc2⟩ := ih c1 (fun b2 hb2 => hall b2 (List.mem_cons_of_mem _ hb2))
              refine ⟨c2, ?_⟩
              unfold runCounters
              rw [hstep]
              exact hc2

theorem countTrue_le (l : List Bool) : countTrue l ≤ l.length :=
  List.length_filter_le _ l

/-- A successful `evalStep` adds the batch size to `total` and at most the
batch size to `correct`. -/
theorem evalStep_ok_bounds {α : Type} {model : α → ℚ} {sig : ℚ → ℚ} {threshold : ℚ}
    {c c2 : EvalCounters} {b : EvalBatch α}
    (h : evalStep model sig threshold c b = Except.ok c2) :
    c2.total = c.total + b.length ∧ c2.correct ≤ c.correct + b.length := by
  simp only [evalStep] at h
  split at h
  · exact absurd h (by simp)
  · injection h with h
    subst h
    refine ⟨by simp, ?_⟩
    have h1 : countTrue (List.zipWith (fun p l => p == l)
        (predictedOf model sig threshold b) (b.map Prod.snd)) ≤ b.length := by
      refine le_trans (countTrue_le _) ?_
      rw [List.length_zipWith]
      simp [predictedOf]
    simpa using Nat.add_le_add_left h1 c.correct

/-- The counter loop keeps `correct ≤ total`. -/
theorem runCounters_le {α : Type} (model : α → ℚ) (sig : ℚ → ℚ) (threshold : ℚ) :
    ∀ (batches : List (EvalBatch α)) (c c2 : EvalCounters),
      runCounters model sig threshold c batches = Except.ok c2 →
      c.correct ≤ c.total → c2.correct ≤ c2.total := by
  intro batches
  induction batches with
  | nil =>
      intro c c2 h hle
      unfold runCounters at h
      injection h with h
      rw [← h]
      exact hle
  | cons b bs ih =>
      intro c c2 h hle
      unfold runCounters at h
      split at h
      · exact absurd h (by simp)
      · rename_i c1 hstep
        have hb := evalStep_ok_bounds hstep
        exact ih c1 c2 h (by omega)

theorem computeMetrics_total_zero (c : EvalCounters) (h : (c.total : ℚ) = 0) :
    computeMetrics c = Except.error PyError.zeroDivision := by
  simp [computeMetrics, pyDiv_of_eq h]

theorem computeMetrics_pp_zero (c : EvalCounters) (h1 : (c.total : ℚ) ≠ 0)
    (h2 : (c.predicted_positive : ℚ) = 0) :
    computeMetrics c = Except.error PyError.zeroDivision := by
  simp [computeMetrics, pyDiv_of_ne h1, pyDiv_of_eq h2]

theorem computeMetrics_tp_zero (c : EvalCounters) (h1 : (c.total : ℚ) ≠ 0)
    (h2 : (c.predicted_positive : ℚ) ≠ 0) (h3 : (c.total_positive : ℚ) = 0) :
    computeMetrics c = Except.error PyError.zeroDivision := by
  simp [computeMetrics, pyDiv_of_ne h1, pyDiv_of_ne h2, pyDiv_of_eq h3]

theorem computeMetrics_f1_zero (c : EvalCounters) (h1 : (c.total : ℚ) ≠ 0)
    (h2 : (c.predicted_positive : ℚ) ≠ 0) (h3 : (c.total_positive : ℚ) ≠ 0)
    (h4 : (c.predicted_positive_correct : ℚ) / (c.predicted_positive : ℚ) +
        (c.predicted_positive_correct : ℚ) / (c.total_positive : ℚ) = 0) :
    computeMetrics c = Except.error PyError.zeroDivision := by
  simp [computeMetrics, pyDiv_of_ne h1, pyDiv_of_ne h2, pyDiv_of_ne h3, pyDiv_of_eq h4]

theorem computeMetrics_of_nonzero (c : EvalCounters) (h1 : (c.total : ℚ) ≠ 0)
    (h2 : (c.predicted_positive : ℚ) ≠ 0) (h3 : (c.total_positive : ℚ) ≠ 0)
    (h4 : (c.predicted_positive_correct : ℚ) / (c.predicted_positive : ℚ) +
        (c.predicted_positive_correct : ℚ) / (c.total_positive : ℚ) ≠ 0) :
    computeMetrics c = Except.ok
      ((c.correct : ℚ) / (c.total : ℚ),
       (c.predicted_positive_correct : ℚ) / (c.predicted_positive : ℚ),
       (c.predicted_positive_correct : ℚ) / (c.total_positive : ℚ),
       2 * ((c.predicted_positive_correct : ℚ) / (c.predicted_positive : ℚ)) *
         ((c.predicted_positive_correct : ℚ) / (c.total_positive : ℚ)) /
         ((c.predicted_positive_correct : ℚ) / (c.predicted_positive : ℚ) +
          (c.predicted_positive_correct : ℚ) / (c.total_positive : ℚ))) := by
  simp [computeMetrics, pyDiv_of_ne h1, pyDiv_of_ne h2, pyDiv_of_ne h3, pyDiv_of_ne h4]

/-- The final divisions can raise only `ZeroDivisionError`, never the
ambiguous-truth-value error. -/
theorem computeMetrics_ne_ambiguous (c : EvalCounters) :
    computeMetrics c ≠ Except.error PyError.tensorAmbiguous := by
  by_cases h1 : (c.total : ℚ) = 0
  · rw [computeMetrics_total_zero c h1]; simp
  · by_cases h2 : (c.predicted_positive : ℚ) = 0
    · rw [computeMetrics_pp_zero c h1 h2]; simp
    · by_cases h3 : (c.total_positive : ℚ) = 0
      · rw [computeMetrics_tp_zero c h1 h2 h3]; simp
      · by_cases h4 : (c.predicted_positive_correct : ℚ) / (c.predicted_positive : ℚ) +
            (c.predicted_positive_correct : ℚ) / (c.total_positive : ℚ) = 0
        · rw [computeMetrics_f1_zero c h1 h2 h3 h4]; simp
        · rw [computeMetrics_of_nonzero c h1 h2 h3 h4]; simp

/-- `DataLoader(dataset, batch_size=bs)`: the loader yields the samples in
consecutive chunks of `bs` (the trailing chunk may be smaller).  The source
only uses positive batch sizes (1 for evaluation, 32 for training). -/
def loaderChunks {α : Type} (bs : Nat) : List α → List (List α)
  | [] => []
  | x :: xs => ((x :: xs).take bs) :: loaderChunks bs (xs.drop (bs - 1))
termination_by xs => xs.length
decreasing_by
  simp
  omega

/-- With `batch_size=1`, as the cross-validation loop builds its
`test_loader`, every yielded batch is a single sample. -/
theorem loaderChunks_one {α : Type} (xs : List α) :
    loaderChunks 1 xs = xs.map (fun x => [x]) := by
  induction xs with
  | nil => simp [loaderChunks]
  | cons x xs ih => simp [loaderChunks, ih]

theorem evaluate_model_ok_elim {α : Type} {model : α → ℚ} {sig : ℚ → ℚ} {threshold : ℚ}
    {batches : List (EvalBatch α)} {c : EvalCounters}
    (hrc : runCounters model sig threshold zeroCounters batches = Except.ok c) :
    evaluate_model model sig threshold batches = computeMetrics c := by
  unfold evaluate_model
  rw [hrc]

/-- Identity stand-in used to instantiate the abstract model and sigmoid
collaborators on concrete inputs. -/
def idq : ℚ → ℚ := fun q => q

/-- C2, claim as frozen is false: on a two-sample batch whose elementwise
logical-AND count is 2, the accumulation expression raises the ambiguous
truth-value error instead of incrementing the counter by 2. -/
theorem c2_counterexample :
    evalStep idq idq 0 zeroCounters [((1 : ℚ), 1), ((1 : ℚ), 1)] =
      Except.error PyError.tensorAmbiguous ∧
    specAndCount idq idq 0 [((1 : ℚ), 1), ((1 : ℚ), 1)] = 2 := by
  constructor
  · decide
  · decide

/-- C2 (amended): on every one-sample evaluation batch the
`predicted_positive_correct` counter is incremented by exactly the
elementwise logical-AND count of (prediction = 1) with (label = 1), after
sigmoid and thresholding; on any batch of two or more samples the
expression instead raises the ambiguous-truth-value error. -/
theorem c2_amended_increment {α : Type} (model : α → ℚ) (sig : ℚ → ℚ) (threshold : ℚ)
    (c : EvalCounters) :
    (∀ (x : α) (y : Nat), ∃ c2,
        evalStep model sig threshold c [(x, y)] = Except.ok c2 ∧
        c2.predicted_positive_correct =
          c.predicted_positive_correct + specAndCount model sig threshold [(x, y)]) ∧
    (∀ b : EvalBatch α, 2 ≤ b.length →
        evalStep model sig threshold c b = Except.error PyError.tensorAmbiguous) := by
  constructor
  · intro x y
    exact ⟨_, evalStep_singleton model sig threshold c x y, rfl⟩
  · intro b hb
    exact evalStep_multi model sig threshold c b hb

theorem c2_witness :
    evalStep idq idq 0 zeroCounters [((5 : ℚ), 0), ((7 : ℚ), 1)] =
      Except.error PyError.tensorAmbiguous ∧
    (∃ c2, evalStep idq idq 0 zeroCounters [((3 : ℚ), 1)] = Except.ok c2 ∧
        c2.predicted_positive_correct =
          zeroCounters.predicted_positive_correct + specAndCount idq idq 0 [((3 : ℚ), 1)]) :=
  ⟨(c2_amended_increment idq idq 0 zeroCounters).2 _ (by decide),
   (c2_amended_increment idq idq 0 zeroCounters).1 3 1⟩

/-- C3, claim as frozen is false: on a run whose counters end with
`predicted_positive = 0` the function raises an uncaught
`ZeroDivisionError` instead of returning the default precision 0.0. -/
theorem c3_counterexample :
    runCounters idq idq 0 zeroCounters [[((-1 : ℚ), 0)]] = Except.ok ⟨1, 1, 0, 0, 0⟩ ∧
    evaluate_model idq idq 0 [[((-1 : ℚ), 0)]] = Except.error PyError.zeroDivision := by
  have hrc : runCounters idq idq 0 zeroCounters [[((-1 : ℚ), 0)]] =
      Except.ok ⟨1, 1, 0, 0, 0⟩ := by decide
  refine ⟨hrc, ?_⟩
  rw [evaluate_model_ok_elim hrc]
  rw [computeMetrics_pp_zero] <;> norm_num

/-- C3 (amended): when the counters at the end of iteration have
`predicted_positive = 0`, `evaluate_model` raises an uncaught
`ZeroDivisionError` (no default is substituted); likewise when
`total_positive = 0` (recall) and when precision and recall are both zero
(F1's denominator `precision + recall` is zero). -/
theorem c3_amended_division_error {α : Type} (model : α → ℚ) (sig : ℚ → ℚ) (threshold : ℚ)
    (batches : List (EvalBatch α)) (c : EvalCounters)
    (hrun : runCounters model sig threshold zeroCounters batches = Except.ok c)
    (htot : c.total ≠ 0) :
    (c.predicted_positive = 0 →
      evaluate_model model sig threshold batches = Except.error PyError.zeroDivision) ∧
    (c.predicted_positive ≠ 0 → c.total_positive = 0 →
      evaluate_model model sig threshold batches = Except.error PyError.zeroDivision) ∧
    (c.predicted_positive ≠ 0 → c.total_positive ≠ 0 → c.predicted_positive_correct = 0 →
      evaluate_model model sig threshold batches = Except.error PyError.zeroDivision) := by
  have he := evaluate_model_ok_elim hrun
  have htq : (c.total : ℚ) ≠ 0 := Nat.cast_ne_zero.mpr htot
  refine ⟨?_, ?_, ?_⟩
  · intro hpp
    rw [he, computeMetrics_pp_zero c htq (by exact_mod_cast congrArg (Nat.cast : Nat → ℚ) hpp)]
  · intro hpp htp
    rw [he, computeMetrics_tp_zero c htq (Nat.cast_ne_zero.mpr hpp)
      (by exact_mod_cast congrArg (Nat.cast : Nat → ℚ) htp)]
  · intro hpp htp hppc
    have hppcq : (c.predicted_positive_correct : ℚ) = 0 := by exact_mod_cast hppc
    rw [he, computeMetrics_f1_zero c htq (Nat.cast_ne_zero.mpr hpp) (Nat.cast_ne_zero.mpr htp)
      (by rw [hppcq]; simp)]

theorem c3_witness :
    evaluate_model idq idq 0 [[((-1 : ℚ), 0)], [((-1 : ℚ), 1)]] =
      Except.error PyError.zeroDivision :=
  (c3_amended_division_error idq idq 0 [[((-1 : ℚ), 0)], [((-1 : ℚ), 1)]]
    ⟨2, 1, 1, 0, 0⟩ (by decide) (by decide)).1 rfl

/-- C6 (confirmed): a successful `evaluate_model` returns the four-tuple
(accuracy, precision, recall, F1) in that order, each computed from the
accumulated counters by the stated quotients; accuracy lies in [0, 1], and
counters total = 10 with correct = 8 give accuracy 8/10 = 0.8. -/
theorem c6_metric_formulas {α : Type} (model : α → ℚ) (sig : ℚ → ℚ) (threshold : ℚ)
    (batches : List (EvalBatch α)) (a p r f : ℚ)
    (h : evaluate_model model sig threshold batches = Except.ok (a, p, r, f)) :
    ∃ c : EvalCounters,
      runCounters model sig threshold zeroCounters batches = Except.ok c ∧
      a = (c.correct : ℚ) / (c.total : ℚ) ∧
      p = (c.predicted_positive_correct : ℚ) / (c.predicted_positive : ℚ) ∧
      r = (c.predicted_positive_correct : ℚ) / (c.total_positive : ℚ) ∧
      f = 2 * p * r / (p + r) ∧
      0 ≤ a ∧ a ≤ 1 ∧
      (c.total = 10 → c.correct = 8 → a = 8 / 10) := by
  unfold evaluate_model at h
  split at h
  · exact absurd h (by simp)
  · rename_i c hrc
    by_cases h1 : (c.total : ℚ) = 0
    · rw [computeMetrics_total_zero c h1] at h
      exact absurd h (by simp)
    · by_cases h2 : (c.predicted_positive : ℚ) = 0
      · rw [computeMetrics_pp_zero c h1 h2] at h
        exact absurd h (by simp)
      · by_cases h3 : (c.total_positive : ℚ) = 0
        · rw [computeMetrics_tp_zero c h1 h2 h3] at h
          exact absurd h (by simp)
        · by_cases h4 : (c.predicted_positive_correct : ℚ) / (c.predicted_positive : ℚ) +
              (c.predicted_positive_correct : ℚ) / (c.total_positive : ℚ) = 0
          · rw [computeMetrics_f1_zero c h1 h2 h3 h4] at h
            exact absurd h (by simp)
          · rw [computeMetrics_of_nonzero c h1 h2 h3 h4] at h
            simp only [Except.ok.injEq, Prod.mk.injEq] at h
            obtain ⟨ha, hp, hr, hf⟩ := h
            have hcorrect : c.correct ≤ c.total :=
              runCounters_le model sig threshold batches zeroCounters c hrc (le_refl 0)
            have htotpos : (0 : ℚ) < (c.total : ℚ) := by
              have : c.total ≠ 0 := fun hz => h1 (by rw [hz]; simp)
              exact_mod_cast Nat.pos_of_ne_zero this
            refine ⟨c, hrc, ha.symm, hp.symm, hr.symm, ?_, ?_, ?_, ?_⟩
            · rw [← hf, ← hp, ← hr]
            · rw [← ha]
              exact div_nonneg (Nat.cast_nonneg _) (Nat.cast_nonneg _)
            · rw [← ha]
              exact (div_le_one htotpos).mpr (Nat.cast_le.mpr hcorrect)
            · intro ht hc
              rw [← ha, ht, hc]
              norm_num

theorem c6_witness :
    evaluate_model idq idq 0
      [[((1 : ℚ), 1)], [((1 : ℚ), 1)], [((1 : ℚ), 1)], [((1 : ℚ), 1)], [((1 : ℚ), 1)],
       [((1 : ℚ), 1)], [((-1 : ℚ), 0)], [((-1 : ℚ), 0)], [((1 : ℚ), 0)], [((1 : ℚ), 0)]] =
      Except.ok (4 / 5, 3 / 4, 1, 6 / 7) ∧
    (0 : ℚ) ≤ 4 / 5 ∧ (4 : ℚ) / 5 ≤ 1 := by
  have hrc : runCounters idq idq 0 zeroCounters
      [[((1 : ℚ), 1)], [((1 : ℚ), 1)], [((1 : ℚ), 1)], [((1 : ℚ), 1)], [((1 : ℚ), 1)],
       [((1 : ℚ), 1)], [((-1 : ℚ), 0)], [((-1 : ℚ), 0)], [((1 : ℚ), 0)], [((1 : ℚ), 0)]] =
      Except.ok ⟨10, 8, 6, 8, 6⟩ := by decide
  have h : evaluate_model idq idq 0
      [[((1 : ℚ), 1)], [((1 : ℚ), 1)], [((1 : ℚ), 1)], [((1 : ℚ), 1)], [((1 : ℚ), 1)],
       [((1 : ℚ), 1)], [((-1 : ℚ), 0)], [((-1 : ℚ), 0)], [((1 : ℚ), 0)], [((1 : ℚ), 0)]] =
      Except.ok (4 / 5, 3 / 4, 1, 6 / 7) := by
    rw [evaluate_model_ok_elim hrc]
    rw [computeMetrics_of_nonzero] <;> norm_num
  obtain ⟨c, hc1, hc2, hc3, hc4, hc5, hc6, hc7, hc8⟩ :=
    c6_metric_formulas idq idq 0 _ (4 / 5) (3 / 4) 1 (6 / 7) h
  exact ⟨h, hc6, hc7⟩

/-- C10 (confirmed): the true-positive accumulation expression is only
well-defined on one-sample batches — any batch with two or more samples
raises the ambiguous-truth-value error — so `evaluate_model` avoids this
error exactly under the batch-size-1 loader the cross-validation loop
builds (`DataLoader(test_data, batch_size=1)` yields only one-sample
batches). -/
theorem c10_requires_batch_size_one {α : Type} (model : α → ℚ) (sig : ℚ → ℚ) (threshold : ℚ) :
    (∀ (c : EvalCounters) (b : EvalBatch α), 2 ≤ b.length →
        evalStep model sig threshold c b = Except.error PyError.tensorAmbiguous) ∧
    (∀ samples : List (α × Nat),
        (∀ b2 ∈ loaderChunks 1 samples, List.length b2 = 1) ∧
        evaluate_model model sig threshold (loaderChunks 1 samples) ≠
          Except.error PyError.tensorAmbiguous) := by
  constructor
  · intro c b hb
    exact evalStep_multi model sig threshold c b hb
  · intro samples
    have hlen : ∀ b2 ∈ loaderChunks 1 samples, List.length b2 = 1 := by
      rw [loaderChunks_one]
      intro b2 hb2
      obtain ⟨x, _, hx⟩ := List.mem_map.mp hb2
      rw [← hx]
      rfl
    refine ⟨hlen, ?_⟩
    obtain ⟨c2, hc2⟩ :=
      runCounters_singletons model sig threshold (loaderChunks 1 samples) zeroCounters hlen
    rw [evaluate_model_ok_elim hc2]
    exact computeMetrics_ne_ambiguous c2

theorem c10_witness :
    evalStep idq idq 0 zeroCounters [((2 : ℚ), 1), ((4 : ℚ), 0)] =
      Except.error PyError.tensorAmbiguous ∧
    evaluate_model idq idq 0 (loaderChunks 1 [((1 : ℚ), 1), ((-1 : ℚ), 0), ((1 : ℚ), 0)]) ≠
      Except.error PyError.tensorAmbiguous :=
  ⟨(c10_requires_batch_size_one idq idq 0).1 zeroCounters _ (by decide),
   ((c10_requires_batch_size_one idq idq 0).2 [((1 : ℚ), 1), ((-1 : ℚ), 0), ((1 : ℚ), 0)]).2⟩

/-- Errors scikit-learn raises around `KFold`: the constructor rejects
`n_splits < 2`; `split` raises when `n_splits` exceeds the sample count. -/
inductive SplitError where
  | tooFewSplits
  | tooManySplits
  deriving DecidableEq

/-- The `fold_sizes` array of sklearn `KFold._iter_test_indices`:
`n_samples // n_splits` everywhere, plus one for the first
`n_samples % n_splits` folds. -/
def foldSizes (n k : Nat) : List Nat :=
  (List.range k).map (fun i => n / k + if i < n % k then 1 else 0)

/-- The successive slices `indices[current : current + fold_size]`. -/
def chunkBySizes {α : Type} : List Nat → List α → List (List α)
  | [], _ => []
  | sz :: rest, xs => xs.take sz :: chunkBySizes rest (xs.drop sz)

/-- `KFold(n_splits=k, shuffle=True, random_state=42).split(dataset)`, test
halves: validate `k`, then slice the shuffled index array into `k`
consecutive test-index arrays.  The seeded Mersenne-Twister shuffle is an
external collaborator; it is modelled by quantifying over the permutation
`perm` of `range n` it produces. -/
def kfoldTestSets (k : Nat) (perm : List Nat) : Except SplitError (List (List Nat)) :=
  if k < 2 then Except.error SplitError.tooFewSplits
  else if perm.length < k then Except.error SplitError.tooManySplits
  else Except.ok (chunkBySizes (foldSizes perm.length k) perm)

theorem sum_map_range_add_indicator (c m : Nat) :
    ∀ k : Nat, ((List.range k).map (fun i => c + if i < m then 1 else 0)).sum = k * c + min m k := by
  intro k
  induction k with
  | zero => simp
  | succ k ih =>
      rw [List.range_succ, List.map_append, List.sum_append]
      simp only [List.map_cons, List.map_nil, List.sum_cons, List.sum_nil, ih]
      rw [Nat.succ_mul]
      by_cases hm : k < m
      · rw [if_pos hm, min_eq_right (Nat.le_of_lt hm), min_eq_right (by omega : k + 1 ≤ m)]
        omega
      · rw [if_neg hm, min_eq_left (by omega : m ≤ k), min_eq_left (by omega : m ≤ k + 1)]
        omega

theorem foldSizes_sum (n k : Nat) (hk : 0 < k) : (foldSizes n k).sum = n := by
  unfold foldSizes
  rw [sum_map_range_add_indicator]
  have h1 : n % k < k := Nat.mod_lt _ hk
  have h2 : k * (n / k) + n % k = n := Nat.div_add_mod n k
  omega

theorem chunkBySizes_length {α : Type} :
    ∀ (sizes : List Nat) (xs : List α), (chunkBySizes sizes xs).length = sizes.length
  | [], _ => rfl
  | _ :: rest, xs => by simp [chunkBySizes, chunkBySizes_length rest]

theorem chunkBySizes_flatten {α : Type} :
    ∀ (sizes : List Nat) (xs : List α),
      sizes.sum = xs.length → (chunkBySizes sizes xs).flatten = xs := by
  intro sizes
  induction sizes with
  | nil =>
      intro xs h
      have hx : xs = [] := List.length_eq_zero.mp (by simpa using h.symm)
      rw [hx]
      rfl
  | cons sz rest ih =>
      intro xs h
      have hrest : rest.sum = (xs.drop sz).length := by
        simp only [List.sum_cons] at h
        rw [List.length_drop]
        omega
      simp only [chunkBySizes, List.flatten_cons, ih (xs.drop sz) hrest]
      exact List.take_append_drop sz xs

/-- C5 (confirmed): whenever `KFold.split` succeeds on a permutation of the
dataset's index range, the k test-index sets are pairwise disjoint, every
index below n occurs in them exactly once, and nothing else occurs. -/
theorem c5_kfold_test_sets_partition (n k : Nat) (perm : List Nat) (tests : List (List Nat))
    (hperm : perm.Perm (List.range n))
    (hok : kfoldTestSets k perm = Except.ok tests) :
    tests.length = k ∧
    List.Pairwise List.Disjoint tests ∧
    (∀ i, i < n → tests.flatten.count i = 1) ∧
    (∀ i, i ∈ tests.flatten → i < n) := by
  unfold kfoldTestSets at hok
  by_cases hk2 : k < 2
  · simp [hk2] at hok
  · by_cases hkn : perm.length < k
    · simp [hk2, hkn] at hok
    · simp only [hk2, hkn, if_false, Except.ok.injEq] at hok
      have hsum : (foldSizes perm.length k).sum = perm.length :=
        foldSizes_sum _ _ (by omega)
      have hflat : tests.flatten = perm := by
        rw [← hok]
        exact chunkBySizes_flatten _ _ hsum
      have hnd : perm.Nodup := (hperm.nodup_iff).mpr (List.nodup_range n)
      refine ⟨?_, ?_, ?_, ?_⟩
      · rw [← hok, chunkBySizes_length]
        simp [foldSizes]
      · have hndf : tests.flatten.Nodup := by rw [hflat]; exact hnd
        exact (List.nodup_flatten.mp hndf).2
      · intro i hi
        rw [hflat, hperm.count_eq]
        exact List.count_eq_one_of_mem (List.nodup_range n) (List.mem_range.mpr hi)
      · intro i hi
        rw [hflat] at hi
        exact List.mem_range.mp (hperm.mem_iff.mp hi)

theorem c5_witness :
    kfoldTestSets 2 [2, 0, 3, 1, 4] = Except.ok [[2, 0, 3], [1, 4]] ∧
    ([[2, 0, 3], [1, 4]] : List (List Nat)).length = 2 ∧
    List.Pairwise List.Disjoint ([[2, 0, 3], [1, 4]] : List (List Nat)) ∧
    ([[2, 0, 3], [1, 4]] : List (List Nat)).flatten.count 3 = 1 := by
  have hok : kfoldTestSets 2 [2, 0, 3, 1, 4] = Except.ok [[2, 0, 3], [1, 4]] := by decide
  have h := c5_kfold_test_sets_partition 5 2 [2, 0, 3, 1, 4] [[2, 0, 3], [1, 4]]
    (by decide) hok
  exact ⟨hok, h.1, h.2.1, h.2.2.1 3 (by decide)⟩

/-- The primitive operations of one iteration of `train_model`'s inner
batch loop, in source order. -/
inductive TrainOp where
  | zeroGradOp
  | forwardOp
  | lossOp
  | backwardOp
  | optStepOp
  | schedStepOp
  deriving DecidableEq

/-- What one batch iteration performs: `optimizer.zero_grad()`,
`outputs = model(inputs)`, `loss = loss_fn(outputs.view(-1), labels.float())`,
`loss.backward()`, `optimizer.step()`, `scheduler.step()`. -/
def batchTrace : List TrainOp :=
  [TrainOp.zeroGradOp, TrainOp.forwardOp, TrainOp.lossOp, TrainOp.backwardOp,
   TrainOp.optStepOp, TrainOp.schedStepOp]

/-- The operations of one epoch of `nBatches` batches. -/
def epochTrace (nBatches : Nat) : List TrainOp :=
  (List.replicate nBatches batchTrace).flatten

/-- The operations of a whole `train_model` run. -/
def trainTrace (nEpochs nBatches : Nat) : List TrainOp :=
  (List.replicate nEpochs (epochTrace nBatches)).flatten

/-- The state `train_model` mutates in place: the model's parameters (with
their gradients), the optimizer state, the scheduler state. -/
structure TrainerState (μ ω τ : Type) where
  model : μ
  opt : ω
  sched : τ

/-- One iteration of the inner loop of `train_model`: zero the gradients,
run the forward pass, compute the loss against the labels cast to float,
backpropagate and apply one optimizer step, then one scheduler step (which
also writes the new learning rate into the optimizer).  The autograd
machinery is the external collaborator `backStep`.  Returns the new state
and the operations performed. -/
def train_batch {α μ ω τ : Type}
    (zeroGradF : μ → μ)
    (fwd : μ → List α → List ℚ)
    (lossFn : List ℚ → List ℚ → ℚ)
    (backStep : μ → ω → ℚ → μ × ω)
    (schedStepF : τ → ω → τ × ω)
    (s : TrainerState μ ω τ) (b : EvalBatch α) : TrainerState μ ω τ × List TrainOp :=
  let m0 := zeroGradF s.model
  let outputs := fwd m0 (b.map Prod.fst)
  let loss := lossFn outputs (b.map (fun p => ((p.2 : ℚ))))
  let mo := backStep m0 s.opt loss
  let ts := schedStepF s.sched mo.2
  (⟨mo.1, ts.2, ts.1⟩, batchTrace)

/-- The inner `for inputs, labels in data_loader` loop of one epoch. -/
def train_epoch {α μ ω τ : Type}
    (zeroGradF : μ → μ) (fwd : μ → List α → List ℚ) (lossFn : List ℚ → List ℚ → ℚ)
    (backStep : μ → ω → ℚ → μ × ω) (schedStepF : τ → ω → τ × ω) :
    TrainerState μ ω τ → List (EvalBatch α) → TrainerState μ ω τ × List TrainOp
  | s, [] => (s, [])
  | s, b :: bs =>
      let r := train_batch zeroGradF fwd lossFn backStep schedStepF s b
      let rest := train_epoch zeroGradF fwd lossFn backStep schedStepF r.1 bs
      (rest.1, r.2 ++ rest.2)

/-- `train_model(model, data_loader, optimizer, loss_fn, scheduler,
num_epochs)`: `num_epochs` full passes over the data source; the loader
reshuffles between epochs, so epoch `e` sees the batch list `batchesOf e`.
The Python function returns nothing and only mutates its state; here the
final state is returned together with the trace of operations. -/
def train_model {α μ ω τ : Type}
    (zeroGradF : μ → μ) (fwd : μ → List α → List ℚ) (lossFn : List ℚ → List ℚ → ℚ)
    (backStep : μ → ω → ℚ → μ × ω) (schedStepF : τ → ω → τ × ω)
    (batchesOf : Nat → List (EvalBatch α)) (num_epochs : Nat)
    (s : TrainerState μ ω τ) : TrainerState μ ω τ × List TrainOp :=
  (List.range num_epochs).foldl
    (fun acc e =>
      let r := train_epoch zeroGradF fwd lossFn backStep schedStepF acc.1 (batchesOf e)
      (r.1, acc.2 ++ r.2))
    (s, [])

theorem train_epoch_trace {α μ ω τ : Type}
    (zeroGradF : μ → μ) (fwd : μ → List α → List ℚ) (lossFn : List ℚ → List ℚ → ℚ)
    (backStep : μ → ω → ℚ → μ × ω) (schedStepF : τ → ω → τ × ω) :
    ∀ (batches : List (EvalBatch α)) (s : TrainerState μ ω τ),
      (train_epoch zeroGradF fwd lossFn backStep schedStepF s batches).2 =
        (List.replicate batches.length batchTrace).flatten := by
  intro batches
  induction batches with
  | nil => intro s; rfl
  | cons b bs ih =>
      intro s
      simp only [train_epoch, ih, List.length_cons, List.replicate_succ, List.flatten_cons]
      rfl

theorem train_model_succ {α μ ω τ : Type}
    (zeroGradF : μ → μ) (fwd : μ → List α → List ℚ) (lossFn : List ℚ → List ℚ → ℚ)
    (backStep : μ → ω → ℚ → μ × ω) (schedStepF : τ → ω → τ × ω)
    (batchesOf : Nat → List (EvalBatch α)) (nE : Nat) (s : TrainerState μ ω τ) :
    train_model zeroGradF fwd lossFn backStep schedStepF batchesOf (nE + 1) s =
      ((train_epoch zeroGradF fwd lossFn backStep schedStepF
          (train_model zeroGradF fwd lossFn backStep schedStepF batchesOf nE s).1
          (batchesOf nE)).1,
       (train_model zeroGradF fwd lossFn backStep schedStepF batchesOf nE s).2 ++
         (train_epoch zeroGradF fwd lossFn backStep schedStepF
           (train_model zeroGradF fwd lossFn backStep schedStepF batchesOf nE s).1
           (batchesOf nE)).2) := by
  unfold train_model
  rw [List.range_succ, List.foldl_append]
  simp

theorem count_flatten_replicate (l : List TrainOp) (op : TrainOp) :
    ∀ n : Nat, ((List.replicate n l).flatten).count op = n * l.count op := by
  intro n
  induction n with
  | zero => simp
  | succ n ih =>
      rw [List.replicate_succ, List.flatten_cons, List.count_append, ih, Nat.succ_mul]
      omega

theorem train_model_trace {α μ ω τ : Type}
    (zeroGradF : μ → μ) (fwd : μ → List α → List ℚ) (lossFn : List ℚ → List ℚ → ℚ)
    (backStep : μ → ω → ℚ → μ × ω) (schedStepF : τ → ω → τ × ω)
    (batchesOf : Nat → List (EvalBatch α)) (nB : Nat)
    (hB : ∀ e, (batchesOf e).length = nB) :
    ∀ (nE : Nat) (s : TrainerState μ ω τ),
      (train_model zeroGradF fwd lossFn backStep schedStepF batchesOf nE s).2 =
        trainTrace nE nB := by
  intro nE
  induction nE with
  | zero => intro s; rfl
  | succ nE ih =>
      intro s
      rw [train_model_succ]
      simp only [ih, train_epoch_trace, hB]
      unfold trainTrace epochTrace
      rw [List.replicate_succ' nE, List.flatten_append]
      simp

/-- C7 (confirmed): `train_model` performs exactly `num_epochs` passes over
the data source; per batch it performs, in order, gradient zeroing, the
forward pass, loss computation against float-cast labels, backpropagation,
exactly one optimizer step and then exactly one scheduler step; the
scheduler steps once per batch (`nB` times per epoch of `nB` batches), not
once per epoch; the run only mutates the threaded state and emits no
metric value. -/
theorem c7_train_model_schedule {α μ ω τ : Type}
    (zeroGradF : μ → μ) (fwd : μ → List α → List ℚ) (lossFn : List ℚ → List ℚ → ℚ)
    (backStep : μ → ω → ℚ → μ × ω) (schedStepF : τ → ω → τ × ω)
    (batchesOf : Nat → List (EvalBatch α)) (num_epochs nB : Nat)
    (s : TrainerState μ ω τ)
    (hB : ∀ e, (batchesOf e).length = nB) :
    (train_model zeroGradF fwd lossFn backStep schedStepF batchesOf num_epochs s).2 =
      trainTrace num_epochs nB ∧
    trainTrace num_epochs nB = (List.replicate num_epochs (epochTrace nB)).flatten ∧
    (List.replicate num_epochs (epochTrace nB)).length = num_epochs ∧
    batchTrace = [TrainOp.zeroGradOp, TrainOp.forwardOp, TrainOp.lossOp,
      TrainOp.backwardOp, TrainOp.optStepOp, TrainOp.schedStepOp] ∧
    (trainTrace num_epochs nB).count TrainOp.optStepOp = num_epochs * nB ∧
    (epochTrace nB).count TrainOp.schedStepOp = nB ∧
    (trainTrace num_epochs nB).count TrainOp.schedStepOp = num_epochs * nB := by
  have hbt_opt : batchTrace.count TrainOp.optStepOp = 1 := by decide
  have hbt_sch : batchTrace.count TrainOp.schedStepOp = 1 := by decide
  have hep : ∀ op : TrainOp, batchTrace.count op = 1 →
      (epochTrace nB).count op = nB := by
    intro op hop
    unfold epochTrace
    rw [count_flatten_replicate, hop, Nat.mul_one]
  refine ⟨train_model_trace zeroGradF fwd lossFn backStep schedStepF batchesOf nB hB
      num_epochs s, rfl, List.length_replicate _ _, rfl, ?_, hep _ hbt_sch, ?_⟩
  · unfold trainTrace
    rw [count_flatten_replicate, hep _ hbt_opt]
  · unfold trainTrace
    rw [count_flatten_replicate, hep _ hbt_sch]

theorem c7_witness :
    (train_model (fun m : Nat => m) (fun _ _ => []) (fun _ _ => 0)
        (fun m o _ => (m, o)) (fun t o => (t, o))
        (fun _ => [[((0 : ℚ), 1)], [((1 : ℚ), 0)]]) 2 ⟨0, (0 : Nat), (0 : Nat)⟩).2 =
      trainTrace 2 2 ∧
    (trainTrace 2 2).count TrainOp.optStepOp = 2 * 2 ∧
    (epochTrace 2).count TrainOp.schedStepOp = 2 := by
  have h := c7_train_model_schedule (fun m : Nat => m) (fun _ _ => []) (fun _ _ => 0)
    (fun m o _ => (m, o)) (fun t o => (t, o))
    (fun _ => [[((0 : ℚ), 1)], [((1 : ℚ), 0)]]) 2 2 ⟨0, (0 : Nat), (0 : Nat)⟩
    (fun _ => rfl)
  exact ⟨h.1, h.2.2.2.2.1, h.2.2.2.2.2.1⟩

/-- What the cross-validation loop records about one fold.  Python object
identity is modelled by an allocation counter: each constructor call
(`optim.AdamW(...)`, `lr_scheduler.CyclicLR(...)`) returns an object with a
fresh id. -/
structure FoldRecord (P σ τ M : Type) where
  fold_index : Nat
  optimizer_id : Nat
  scheduler_id : Nat
  optimizer_state_at_start : σ
  scheduler_state_at_start : τ
  params_at_start : P
  metrics : M
  deriving DecidableEq

/-- The state threaded through the `for fold, (train_i, test_i) in
enumerate(k_fold.split(dataset))` loop: the single shared model's
parameters and the allocation counter for fresh Python objects. -/
structure CVState (P : Type) where
  params : P
  next_obj_id : Nat
  deriving DecidableEq

/-- One iteration of the cross-validation loop: construct a fresh optimizer
and a fresh scheduler (each a new object whose mutable state starts from
the constructor's initial value `fresh_opt` / `fresh_sched`), train —
which mutates the parameters and the optimizer/scheduler state via the
external collaborator `trainF` — evaluate on the trained parameters, and
finally `cancer_net.load_state_dict(state_dict)` resets the parameters to
the snapshot. -/
def runFold {P σ τ M : Type} (fresh_opt : σ) (fresh_sched : τ) (state_dict : P)
    (trainF : Nat → P → σ → τ → P × σ × τ) (evalF : Nat → P → M)
    (st : CVState P) (idx : Nat) : CVState P × FoldRecord P σ τ M :=
  let opt_id := st.next_obj_id
  let sched_id := st.next_obj_id + 1
  let trained := trainF idx st.params fresh_opt fresh_sched
  let recd : FoldRecord P σ τ M :=
    ⟨idx, opt_id, sched_id, fresh_opt, fresh_sched, st.params, evalF idx trained.1⟩
  (⟨state_dict, st.next_obj_id + 2⟩, recd)

/-- The whole cross-validation loop.  `state_dict = copy.deepcopy(
cancer_net.state_dict())` was taken from the freshly built model, so the
loop starts with `params = p0` and resets to the same `p0`. -/
def cvRun {P σ τ M : Type} (fresh_opt : σ) (fresh_sched : τ) (p0 : P)
    (trainF : Nat → P → σ → τ → P × σ × τ) (evalF : Nat → P → M)
    (numFolds : Nat) : CVState P × List (FoldRecord P σ τ M) :=
  (List.range numFolds).foldl
    (fun acc i =>
      let s := runFold fresh_opt fresh_sched p0 trainF evalF acc.1 i
      (s.1, acc.2 ++ [s.2]))
    (⟨p0, 0⟩, [])

/-- Closed form of the loop: the fold records in order. -/
theorem cvRun_spec {P σ τ M : Type} (fresh_opt : σ) (fresh_sched : τ) (p0 : P)
    (trainF : Nat → P → σ → τ → P × σ × τ) (evalF : Nat → P → M) :
    ∀ numFolds : Nat,
      cvRun fresh_opt fresh_sched p0 trainF evalF numFolds =
        (⟨p0, 2 * numFolds⟩,
         (List.range numFolds).map (fun i =>
           ⟨i, 2 * i, 2 * i + 1, fresh_opt, fresh_sched, p0,
            evalF i (trainF i p0 fresh_opt fresh_sched).1⟩)) := by
  intro numFolds
  induction numFolds with
  | zero => rfl
  | succ n ih =>
      unfold cvRun
      rw [List.range_succ, List.foldl_append]
      unfold cvRun at ih
      rw [ih]
      simp only [List.foldl_cons, List.foldl_nil, List.range_succ, List.map_append,
        List.map_cons, List.map_nil]
      unfold runFold
      refine congrArg₂ Prod.mk ?_ rfl
      simp
      omega

/-- C4 (confirmed): at the start of every fold (immediately after the
previous fold's `load_state_dict`, or at loop entry for fold 0) the model's
parameters equal the snapshot captured once at model construction. -/
theorem c4_params_reset_to_snapshot {P σ τ M : Type} (fresh_opt : σ) (fresh_sched : τ)
    (p0 : P) (trainF : Nat → P → σ → τ → P × σ × τ) (evalF : Nat → P → M)
    (numFolds : Nat) (r : FoldRecord P σ τ M)
    (hr : r ∈ (cvRun fresh_opt fresh_sched p0 trainF evalF numFolds).2) :
    r.params_at_start = p0 := by
  rw [cvRun_spec] at hr
  obtain ⟨i, _, hi⟩ := List.mem_map.mp hr
  rw [← hi]

theorem c4_witness :
    (⟨2, 4, 5, (0 : Nat), (0 : Nat), (5 : Nat), (6 : Nat)⟩ :
      FoldRecord Nat Nat Nat Nat).params_at_start = 5 :=
  c4_params_reset_to_snapshot 0 0 5 (fun _ p o s => (p + 1, o, s)) (fun _ p => p) 3
    ⟨2, 4, 5, 0, 0, 5, 6⟩ (by decide)

/-- C8 (confirmed): the optimizer and scheduler of each fold are freshly
constructed inside that fold: records of different folds carry distinct
object ids (no instance is shared between folds), and every fold's
optimizer and scheduler begin in the constructor's initial state, so no
momentum or learning-rate state carries over from one fold to the next. -/
theorem c8_fresh_optimizer_scheduler {P σ τ M : Type} (fresh_opt : σ) (fresh_sched : τ)
    (p0 : P) (trainF : Nat → P → σ → τ → P × σ × τ) (evalF : Nat → P → M)
    (numFolds : Nat) (r1 r2 : FoldRecord P σ τ M)
    (h1 : r1 ∈ (cvRun fresh_opt fresh_sched p0 trainF evalF numFolds).2)
    (h2 : r2 ∈ (cvRun fresh_opt fresh_sched p0 trainF evalF numFolds).2)
    (hne : r1.fold_index ≠ r2.fold_index) :
    r1.optimizer_id ≠ r2.optimizer_id ∧
    r1.scheduler_id ≠ r2.scheduler_id ∧
    r1.optimizer_id ≠ r2.scheduler_id ∧
    r1.optimizer_state_at_start = fresh_opt ∧
    r1.scheduler_state_at_start = fresh_sched := by
  rw [cvRun_spec] at h1 h2
  obtain ⟨i, _, hi⟩ := List.mem_map.mp h1
  obtain ⟨j, _, hj⟩ := List.mem_map.mp h2
  subst hi
  subst hj
  have hij : i ≠ j := hne
  refine ⟨?_, ?_, ?_, rfl, rfl⟩
  · show 2 * i ≠ 2 * j
    omega
  · show 2 * i + 1 ≠ 2 * j + 1
    omega
  · show 2 * i ≠ 2 * j + 1
    omega

theorem c8_witness :
    (⟨0, 0, 1, (0 : Nat), (0 : Nat), (5 : Nat), (6 : Nat)⟩ :
        FoldRecord Nat Nat Nat Nat).optimizer_id ≠
      (⟨1, 2, 3, (0 : Nat), (0 : Nat), (5 : Nat), (6 : Nat)⟩ :
        FoldRecord Nat Nat Nat Nat).optimizer_id ∧
    (⟨0, 0, 1, (0 : Nat), (0 : Nat), (5 : Nat), (6 : Nat)⟩ :
        FoldRecord Nat Nat Nat Nat).optimizer_state_at_start = 0 := by
  have h := c8_fresh_optimizer_scheduler 0 0 5 (fun _ p o s => (p + 1, o, s)) (fun _ p => p) 3
    ⟨0, 0, 1, 0, 0, 5, 6⟩ ⟨1, 2, 3, 0, 0, 5, 6⟩ (by decide) (by decide) (by decide)
  exact ⟨h.1, h.2.2.2.1⟩

/-- The transform function installed on the single shared `ImageFolder`
dataset object.  `dataset = ImageFolder(root="data", transform=None)`
starts with no transform. -/
inductive TransformKind where
  | train_transform
  | test_transform
  | none_transform
  deriving DecidableEq

/-- The externally visible actions of the fold loop and the final-training
cells, in source order.  `Subset` and `DataLoader` construction are lazy
and read nothing, so they are not events; what matters is that
`train_data.dataset` and `test_data.dataset` are the same shared
`ImageFolder` object, so both `.transform` assignments write one field. -/
inductive PhaseEvent where
  | new_optimizer
  | new_scheduler
  | set_transform (t : TransformKind)
  | train_on (indices : List Nat) (epochs : Nat)
  | evaluate_on (indices : List Nat)
  | load_state_dict
  | torch_save
  deriving DecidableEq

/-- The body of one fold of the cross-validation loop, in source order:
reinitialize optimizer and scheduler; build the training view and install
`train_transform` on the shared dataset; build the evaluation view and
install `test_transform` on the shared dataset; train on the fold's train
indices; evaluate on its test indices; reload the snapshot. -/
def foldEvents (train_i test_i : List Nat) (epochs : Nat) : List PhaseEvent :=
  [PhaseEvent.new_optimizer, PhaseEvent.new_scheduler,
   PhaseEvent.set_transform TransformKind.train_transform,
   PhaseEvent.set_transform TransformKind.test_transform,
   PhaseEvent.train_on train_i epochs,
   PhaseEvent.evaluate_on test_i,
   PhaseEvent.load_state_dict]

/-- All folds of the cross-validation loop, `splits` being the
(train indices, test indices) pairs delivered by `k_fold.split`. -/
def cvEvents (splits : List (List Nat × List Nat)) (epochs : Nat) : List PhaseEvent :=
  (splits.map (fun s => foldEvents s.1 s.2 epochs)).flatten

/-- The final-training cells: reload the snapshot, build fresh optimizer
and scheduler, install `train_transform`, train once on a loader over the
whole dataset (all `n` indices), then `torch.save` the weights. -/
def finalEvents (n epochs : Nat) : List PhaseEvent :=
  [PhaseEvent.load_state_dict, PhaseEvent.new_optimizer, PhaseEvent.new_scheduler,
   PhaseEvent.set_transform TransformKind.train_transform,
   PhaseEvent.train_on (List.range n) epochs,
   PhaseEvent.torch_save]

/-- Everything after model construction: cross-validation, then final
training, sharing the one `num_epochs` value. -/
def pipelineEvents (splits : List (List Nat × List Nat)) (n epochs : Nat) : List PhaseEvent :=
  cvEvents splits epochs ++ finalEvents n epochs

/-- The transform installed on the shared dataset at the moment the first
training phase of the event list starts (the loader reads samples lazily,
during `train_model` itself). -/
def transformAtFirstTrain : List PhaseEvent → TransformKind → Option TransformKind
  | [], _ => none
  | PhaseEvent.set_transform t :: rest, _ => transformAtFirstTrain rest t
  | PhaseEvent.train_on _ _ :: _, cur => some cur
  | _ :: rest, cur => transformAtFirstTrain rest cur

/-- The transform installed when the first evaluation phase starts. -/
def transformAtFirstEval : List PhaseEvent → TransformKind → Option TransformKind
  | [], _ => none
  | PhaseEvent.set_transform t :: rest, _ => transformAtFirstEval rest t
  | PhaseEvent.evaluate_on _ :: _, cur => some cur
  | _ :: rest, cur => transformAtFirstEval rest cur

/-- C1: in every fold, by the time `train_model` runs, the second
`.transform` assignment has already overwritten the first on the shared
dataset, so training reads samples under `test_transform`, not
`train_transform`; evaluation reads under `test_transform` as the claim
says.  The claim's training half is false on the code. -/
theorem c1_training_sees_test_transform (train_i test_i : List Nat) (epochs : Nat)
    (t0 : TransformKind) :
    transformAtFirstTrain (foldEvents train_i test_i epochs) t0 =
      some TransformKind.test_transform ∧
    transformAtFirstEval (foldEvents train_i test_i epochs) t0 =
      some TransformKind.test_transform ∧
    TransformKind.test_transform ≠ TransformKind.train_transform := by
  refine ⟨rfl, rfl, by decide⟩

def isSave : PhaseEvent → Bool
  | PhaseEvent.torch_save => true
  | _ => false

/-- How many `torch.save` calls an event list performs. -/
def countSaves (evts : List PhaseEvent) : Nat := evts.countP isSave

/-- The (indices, epochs) arguments of the training runs of an event list. -/
def trainEventsOf (evts : List PhaseEvent) : List (List Nat × Nat) :=
  evts.filterMap (fun e => match e with
    | PhaseEvent.train_on idx k => some (idx, k)
    | _ => none)

/-- The index arguments of the evaluation runs of an event list. -/
def evalEventsOf (evts : List PhaseEvent) : List (List Nat) :=
  evts.filterMap (fun e => match e with
    | PhaseEvent.evaluate_on idx => some idx
    | _ => none)

theorem countSaves_cvEvents (splits : List (List Nat × List Nat)) (epochs : Nat) :
    countSaves (cvEvents splits epochs) = 0 := by
  induction splits with
  | nil => rfl
  | cons s rest ih =>
      unfold cvEvents countSaves at ih ⊢
      rw [List.map_cons, List.flatten_cons, List.countP_append, ih]
      rfl

/-- C9 (confirmed): after cross-validation the final cells reload the
snapshot first, train exactly once — on a loader over the entire dataset
(`List.range n`, every index, not a fold's training subset) with
`train_transform` installed and the same `epochs` the folds used — run no
evaluation, and `torch.save` the weights exactly once in the whole
pipeline. -/
theorem c9_final_training_once (splits : List (List Nat × List Nat)) (n epochs : Nat) :
    countSaves (pipelineEvents splits n epochs) = 1 ∧
    trainEventsOf (finalEvents n epochs) = [(List.range n, epochs)] ∧
    evalEventsOf (finalEvents n epochs) = [] ∧
    (finalEvents n epochs).head? = some PhaseEvent.load_state_dict ∧
    transformAtFirstTrain (finalEvents n epochs) TransformKind.none_transform =
      some TransformKind.train_transform ∧
    (∀ s ∈ splits, trainEventsOf (foldEvents s.1 s.2 epochs) = [(s.1, epochs)]) := by
  refine ⟨?_, rfl, rfl, rfl, rfl, ?_⟩
  · unfold pipelineEvents countSaves
    rw [List.countP_append]
    have h := countSaves_cvEvents splits epochs
    unfold countSaves at h
    rw [h]
    rfl
  · intro s _
    rfl

theorem c9_witness :
    countSaves (pipelineEvents [([0, 1], [2]), ([2], [0, 1])] 3 10) = 1 ∧
    trainEventsOf (foldEvents [0, 1] [2] 10) = [([0, 1], 10)] := by
  have h := c9_final_training_once [([0, 1], [2]), ([2], [0, 1])] 3 10
  exact ⟨h.1, h.2.2.2.2.2 ([0, 1], [2]) (by decide)⟩
